import Mathlib

/-!
Shallow embedding of the notion-sync repository.

The repository consists of three polling scripts over a Notion events
database:
  * a nag script (src/unnamed/part_000, first script): `isMissingInfo`,
    `getMissingFields`, `getNextPerson`, `shouldNagNow`, `buildNagMessage`,
    `updateNagStatus` and the orchestrating `main` loop;
  * a calendar-sync script with an all-day branch (src/src/sync-calendar.js):
    `createCalendarEvent` and its `main` loop;
  * two calendar-sync variants without the all-day branch (second script of
    src/unnamed/part_000 and src/unnamed/part_001): `createCalendarEvent`.

JavaScript values read off the external record are modelled as follows:
  * a possibly-absent string (optional chaining ending in a `plain_text` or
    `start` field) is an `Option String`; `none` is `undefined`;
  * a possibly-absent number is an `Option Int`;
  * timestamps are `Int` milliseconds since the epoch; a JS `Date` value is
    `Option Int`, with `none` standing for an Invalid Date (time value NaN);
  * JS truthiness on strings: `undefined` and `""` are falsy;
  * page updates are a list of (property-key, value) pairs applied to the
    record, mirroring the payloads passed to `notion.pages.update`.
-/

/-- JS `x || fallback` where `x : Option String` is a possibly-absent string:
`undefined` and the empty string are falsy. -/
def jsOrStr (a : Option String) (b : String) : String :=
  match a with
  | some s => if s == "" then b else s
  | none => b

/-- JS `x || y` where both operands are possibly-absent strings
(`endTime || startTime` in the calendar scripts). -/
def jsOrOpt (a b : Option String) : Option String :=
  match a with
  | some s => if s == "" then b else some s
  | none => b

/-- JS truthiness of a possibly-absent string. -/
def jsTruthy (a : Option String) : Bool :=
  match a with
  | some s => !(s == "")
  | none => false

/-- The truthy content of a possibly-absent string: `some` exactly when the
JS value is truthy (used to model `if (dateInfo.end)`). -/
def truthyOpt (a : Option String) : Option String :=
  match a with
  | some s => if s == "" then none else some s
  | none => none

/-- JS `x?.number || 0`: an absent number (and 0 itself) maps to 0. -/
def jsOrZero (a : Option Int) : Int :=
  match a with
  | some n => n
  | none => 0

/-- JS `<` on two `Date` values: comparison with an Invalid Date (NaN time
value) is always false. -/
def jsDateLt : Option Int → Option Int → Bool
  | some a, some b => decide (a < b)
  | _, _ => false

/-- JS `s.includes('T')` on a possibly-absent string (`undefined` is falsy). -/
def includesT : Option String → Bool
  | some s => s.data.contains 'T'
  | none => false

/-- JS `s.split('T')[0]`: the prefix of `s` before the first `'T'`
(the whole of `s` when `s` has no `'T'`). -/
def splitTHead (s : String) : String :=
  String.mk (s.data.takeWhile (fun c => !(c == 'T')))

/-- One event record, with the fields of the Notion events database that the
scripts read or write.  `lastNagged` is the parsed time value of
`props['Last Nagged']?.date?.start` (`none` when the property, its date or
its start is absent).  `lastEdited` is the store-maintained last-edited
timestamp held inside the `Last edited time` property object. -/
structure Event where
  eventName : Option String
  dateStart : Option String
  dateEnd : Option String
  location : Option String
  description : Option String
  nagCount : Option Int
  lastNagged : Option Int
  lastEdited : Int
  nagStatus : Option String
  askedWho : Option String
  status : Option String
  notes : Option String
  calendarId : Option String
deriving DecidableEq

/-- `new Date(props['Last edited time'])` in `shouldNagNow` coerces the whole
property OBJECT (not its inner timestamp string, which would be
`props['Last edited time']?.last_edited_time`): ECMAScript `ToPrimitive` on a
plain object yields the string `"[object Object]"`, which parses to an
Invalid Date. The resulting `Date` is therefore invalid whatever the record's
`lastEdited` value is; the same holds if the property is absent
(`new Date(undefined)` is also invalid). -/
def lastEditedAsJsDate (_e : Event) : Option Int := none

/-- Result of `shouldNagNow`: the `{ should, reason }` object. -/
structure NagDecision where
  should : Bool
  reason : String
deriving DecidableEq

/-- `shouldNagNow` from the nag script, with `Date.now()` passed in as `now`
(milliseconds). -/
def shouldNagNow (e : Event) (now : Int) : NagDecision :=
  let nagCount := jsOrZero e.nagCount
  if 5 ≤ nagCount then
    ⟨false, "max_attempts"⟩
  else if nagCount = 0 then
    if jsDateLt (lastEditedAsJsDate e) (some (now - 60 * 60 * 1000)) then
      ⟨true, "first_nag"⟩
    else
      ⟨false, "too_soon"⟩
  else
    match e.lastNagged with
    | some t =>
      if jsDateLt (some t) (some (now - 2 * 60 * 60 * 1000)) then
        ⟨true, "follow_up"⟩
      else
        ⟨false, "too_soon"⟩
    | none => ⟨true, "unknown_state"⟩

/-- `hasTime` as computed in `isMissingInfo`/`getMissingFields`:
`props['Date & Time']?.date?.start?.includes('T')`. -/
def hasTimeB (e : Event) : Bool := includesT e.dateStart

/-- `hasLocation`: `props['Location']?.rich_text?.[0]?.plain_text` is truthy. -/
def hasLocationB (e : Event) : Bool := jsTruthy e.location

/-- `hasDescription`: truthiness of the description text. -/
def hasDescriptionB (e : Event) : Bool := jsTruthy e.description

/-- `isMissingInfo` from the nag script. -/
def isMissingInfo (e : Event) : Bool :=
  !hasTimeB e || !hasLocationB e || !hasDescriptionB e

/-- `getMissingFields` from the nag script: pushes `'time'`, `'location'`,
`'description'` in that order. -/
def getMissingFields (e : Event) : List String :=
  (if !hasTimeB e then ["time"] else []) ++
    (if !hasLocationB e then ["location"] else []) ++
      (if !hasDescriptionB e then ["description"] else [])

/-- The fixed rotation list of `getNextPerson` (named `rotation` in the source; renamed here because Mathlib already declares `rotation`). -/
def rotationList : List String := ["winter", "summer", "rav"]

/-- JS array indexing with an integer index: negative indices (and indices
past the end) give `undefined`. -/
def jsIndex (l : List String) (i : Int) : Option String :=
  if i < 0 then none else l.get? i.toNat

/-- `getNextPerson(nagCount)`: `rotation[nagCount % 3]`.  JS `%` truncates
towards zero, i.e. `Int.tmod`. -/
def getNextPerson (nagCount : Int) : Option String :=
  jsIndex rotationList (Int.tmod nagCount 3)

/-- The query filter of `queryEventsNeedingNag` (before the `isMissingInfo`
filter): `Status = 'Scheduled'` and `Nag Status` empty or `'Pending'`. -/
def nagQueryMatches (e : Event) : Bool :=
  (e.status == some "Scheduled") &&
    (e.nagStatus == none || e.nagStatus == some "Pending")

/-- The recipient-specific greeting computed in `buildNagMessage`. -/
def greetingOf (person : String) : String :=
  if person == "winter" then ("🌿 Hey Winter!")
  else if person == "summer" then ("🌸 Hey Summer!")
  else ("🍀 Hey Rav!")

/-- `buildNagMessage(event, person)` from the nag script.  The template
literal is rendered as a concatenation of its parts, in source order.
`nagCount` here is `(props['Nag Count']?.number || 0) + 1`. -/
def buildNagMessage (e : Event) (person : String) : String :=
  let eventName := jsOrStr e.eventName ("Untitled Event")
  let dateStr := jsOrStr e.dateStart ("Unknown date")
  let missing := getMissingFields e
  let nagCount := jsOrZero e.nagCount + 1
  let pre := greetingOf person ++ "\n\nI need some info about this event:\n📅 **" ++
    eventName ++ "** (" ++ dateStr ++ ")\n\n"
  let missingLine := "Missing: " ++ String.intercalate (", ") missing
  let ask := "\n\nCan you fill in the missing details in Notion? Or reply \"don\x27t know\" if you don\x27t have this info.\n\n"
  let attemptLine := "(Attempt " ++ toString nagCount ++ "/5)"
  pre ++ missingLine ++ ask ++ attemptLine

/-- A value in a `notion.pages.update` payload: a number, a select name, a
rich-text content, or an ISO date-time string denoting the instant `t`. -/
inductive PropValue where
  | num : Int → PropValue
  | sel : String → PropValue
  | rich : String → PropValue
  | dateIso : Int → PropValue
deriving DecidableEq

/-- Applying one (property-key, value) pair of an update payload to the
record, by the events database's schema.  A key that names no property of the
schema changes nothing here (the real Notion API rejects the whole request
with a validation error; under either reading the addressed fields of such a
payload are not updated). -/
def applyProp (e : Event) : String × PropValue → Event
  | ("Nag Count", PropValue.num n) => { e with nagCount := some n }
  | ("Last Nagged", PropValue.dateIso t) => { e with lastNagged := some t }
  | ("Nag Status", PropValue.sel s) => { e with nagStatus := some s }
  | ("Asked Who", PropValue.rich s) => { e with askedWho := some s }
  | ("Status", PropValue.sel s) => { e with status := some s }
  | ("Notes", PropValue.rich s) => { e with notes := some s }
  | ("Calendar ID", PropValue.rich s) => { e with calendarId := some s }
  | _ => e

/-- Applying a whole `notion.pages.update` payload. -/
def applyUpdate (e : Event) (payload : List (String × PropValue)) : Event :=
  payload.foldl applyProp e

/-- The payload of `updateNagStatus(eventId, person, nagCount)`.  Note the
keys `date:Last Nagged:start` and `date:Last Nagged:is_datetime`: they are
NOT the `Last Nagged` property of the schema (that update would be
`'Last Nagged': { date: { start: ... } }`), so the record's Last Nagged date
is not addressed by this payload. -/
def updateNagStatusPayload (person : String) (nagCount : Int) (now : Int) :
    List (String × PropValue) :=
  [("Nag Count", PropValue.num nagCount),
   ("date:Last Nagged:start", PropValue.dateIso now),
   ("date:Last Nagged:is_datetime", PropValue.num 1),
   ("Nag Status", PropValue.sel "Pending"),
   ("Asked Who", PropValue.rich person)]

/-- The payload of the `main` loop's give-up update. -/
def giveUpPayload : List (String × PropValue) :=
  [("Nag Status", PropValue.sel "Gave Up")]

/-- What happened to the Slack DM for one record in one pass of `main`:
no `sendSlackDM` call at all, a call that rejected, or a delivered message
(each with the addressed person and the message text). -/
inductive SendOutcome where
  | notAttempted : SendOutcome
  | failed : String → String → SendOutcome
  | delivered : String → String → SendOutcome
deriving DecidableEq

/-- One iteration of the nag script's `main` loop on one queried event.
`sendOk` is the outcome of the `sendSlackDM` call (the Slack API is an
external collaborator); the Notion updates themselves are modelled as
applied.  On a rejected send the catch block only logs, so the record is
unchanged.  `getNextPerson` yields `undefined` only for a negative stored
nag count; that JS value is rendered as the string it would coerce to. -/
def processEvent (e : Event) (now : Int) (sendOk : Bool) : Event × SendOutcome :=
  let d := shouldNagNow e now
  if d.should = false then
    if d.reason == "max_attempts" then
      (applyUpdate e giveUpPayload, SendOutcome.notAttempted)
    else
      (e, SendOutcome.notAttempted)
  else
    let nagCount := jsOrZero e.nagCount
    let person := (getNextPerson nagCount).getD ("undefined")
    let message := buildNagMessage e person
    if sendOk then
      (applyUpdate e (updateNagStatusPayload person (nagCount + 1) now),
        SendOutcome.delivered person message)
    else
      (e, SendOutcome.failed person message)

/-- The fixed time zone string of all three calendar scripts. -/
def TIMEZONE : String := "America/Los_Angeles"

/-- One of the `start`/`end` objects of a Google Calendar event body: either
a `dateTime` (with `timeZone`) for a timed event or a `date` for an all-day
event.  `none` is an absent (or `undefined`-valued) field. -/
structure EventTime where
  dateTime : Option String
  date : Option String
  timeZone : Option String
deriving DecidableEq

/-- The event body passed to `calendar.events.insert`.  The `end` field is
named `endTime` because `end` is a Lean keyword. -/
structure EventBody where
  summary : String
  description : String
  location : String
  start : EventTime
  endTime : EventTime
deriving DecidableEq

/-- Gregorian leap year, as `Date` normalization uses. -/
def isLeapYear (y : Nat) : Bool :=
  y % 4 == 0 && (y % 100 != 0 || y % 400 == 0)

/-- Days in month `m` of year `y`. -/
def daysInMonth (y m : Nat) : Nat :=
  if m == 2 then (if isLeapYear y then 29 else 28)
  else if m == 4 || m == 6 || m == 9 || m == 11 then 30
  else 31

/-- The civil day after `(y, m, d)`. -/
def nextCivilDay : Nat × Nat × Nat → Nat × Nat × Nat
  | (y, m, d) =>
    if d < daysInMonth y m then (y, m, d + 1)
    else if m < 12 then (y, m + 1, 1)
    else (y + 1, 1, 1)

/-- Parse a strict ISO `YYYY-MM-DD` string to a valid civil date: exactly ten
characters, digits and hyphens in place, month in 1..12, day within the
month.  This is the date-only format Notion emits; ECMAScript parses it as
midnight UTC.  Any other string is modelled as an Invalid Date. -/
def parseYMD (s : String) : Option (Nat × Nat × Nat) :=
  match s.data with
  | [y1, y2, y3, y4, h1, m1, m2, h2, d1, d2] =>
    if y1.isDigit && y2.isDigit && y3.isDigit && y4.isDigit &&
        h1 == '-' && m1.isDigit && m2.isDigit && h2 == '-' &&
        d1.isDigit && d2.isDigit then
      let y := (y1.toNat - 48) * 1000 + (y2.toNat - 48) * 100 +
        (y3.toNat - 48) * 10 + (y4.toNat - 48)
      let m := (m1.toNat - 48) * 10 + (m2.toNat - 48)
      let d := (d1.toNat - 48) * 10 + (d2.toNat - 48)
      if 1 ≤ m && m ≤ 12 && 1 ≤ d && d ≤ daysInMonth y m then
        some (y, m, d)
      else none
    else none
  | _ => none

/-- Zero-padded two-digit rendering, as `toISOString` emits. -/
def pad2 (n : Nat) : String :=
  if n < 10 then ("0" ++ toString n) else toString n

/-- Zero-padded four-digit year rendering, as `toISOString` emits. -/
def pad4 (n : Nat) : String :=
  if n < 10 then ("000" ++ toString n)
  else if n < 100 then ("00" ++ toString n)
  else if n < 1000 then ("0" ++ toString n)
  else toString n

/-- `YYYY-MM-DD` rendering of a civil date. -/
def formatYMD : Nat × Nat × Nat → String
  | (y, m, d) => pad4 y ++ "-" ++ pad2 m ++ "-" ++ pad2 d

/-- The all-day next-day computation of sync-calendar.js:
`const nextDay = new Date(dateInfo.start); nextDay.setDate(nextDay.getDate() + 1);
nextDay.toISOString().split('T')[0]`.
Modelled with the process time zone fixed to UTC (the Node default in the
deployment environments; in a non-UTC zone `getDate`/`setDate` read and write
local time and can shift the result across a DST transition, which this
embedding does not model).  Under UTC: `new Date` of a valid `YYYY-MM-DD`
string is midnight UTC of that civil date, `setDate(getDate() + 1)`
normalizes day + 1 by the civil calendar, and `toISOString().split('T')[0]`
formats the civil date back — i.e. exactly the next civil day.  An invalid
string gives an Invalid Date, on which `toISOString` throws a RangeError. -/
def nextDayStr (s : String) : Option String :=
  (parseYMD s).map (fun c => formatYMD (nextCivilDay c))

/-- `createCalendarEvent(notionPage)` of src/src/sync-calendar.js: throws on
a missing (or empty, hence falsy) start value; then builds a timed body when
the start contains `'T'`, an all-day body otherwise.  `Except.error` is a
thrown error's message. -/
def createCalendarEvent (e : Event) : Except String EventBody :=
  match e.dateStart with
  | none => Except.error ("Date & Time is required")
  | some s =>
    if s == "" then Except.error ("Date & Time is required")
    else
      let summary := jsOrStr e.eventName ("Untitled Event")
      let description := jsOrStr e.description ("")
      let location := jsOrStr e.location ("")
      if s.data.contains 'T' then
        Except.ok
          { summary, description, location,
            start := ⟨some s, none, some TIMEZONE⟩,
            endTime := ⟨jsOrOpt e.dateEnd (some s), none, some TIMEZONE⟩ }
      else
        match truthyOpt e.dateEnd with
        | some ed =>
          Except.ok
            { summary, description, location,
              start := ⟨none, some (splitTHead s), none⟩,
              endTime := ⟨none, some (splitTHead ed), none⟩ }
        | none =>
          match nextDayStr s with
          | some nd =>
            Except.ok
              { summary, description, location,
                start := ⟨none, some (splitTHead s), none⟩,
                endTime := ⟨none, some nd, none⟩ }
          | none => Except.error ("Invalid time value")

/-- One iteration of sync-calendar.js's `main` loop on one approved record.
`ins` is the external `calendar.events.insert` call (returning the created
entry's id or a thrown error's message); `nowIso` is the
`new Date().toISOString()` of the sync note.  The returned Bool says whether
the calendar insert was attempted at all.  Per-record errors are caught and
turn into an error note, with no other field written. -/
def syncStep (ins : EventBody → Except String String) (nowIso : String)
    (e : Event) : Event × Bool :=
  match createCalendarEvent e with
  | Except.error m =>
    (applyUpdate e [("Notes", PropValue.rich ("Error syncing: " ++ m))], false)
  | Except.ok body =>
    match ins body with
    | Except.ok cid =>
      (applyUpdate e
        [("Calendar ID", PropValue.rich cid),
         ("Status", PropValue.sel "Scheduled"),
         ("Notes", PropValue.rich ("Synced to calendar on " ++ nowIso))], true)
    | Except.error m =>
      (applyUpdate e [("Notes", PropValue.rich ("Error syncing: " ++ m))], true)

/-- The whole `main` loop of sync-calendar.js over the queried approved
records: each record is processed independently (every per-record error is
caught inside the loop body), so the pass is a map. -/
def syncAll (ins : EventBody → Except String String) (nowIso : String)
    (es : List Event) : List Event :=
  es.map (fun e => (syncStep ins nowIso e).1)

/-- `createCalendarEvent(notionPage)` of the two calendar-sync variants
without the all-day branch (second script of src/unnamed/part_000, and
src/unnamed/part_001 — their event-building code is identical): always a
timed body, `start.dateTime` taken as-is (possibly `undefined`),
`end.dateTime` as `endTime || startTime`, no throw before the insert. -/
def createCalendarEventSimple (e : Event) : EventBody :=
  { summary := jsOrStr e.eventName ("Untitled Event"),
    description := jsOrStr e.description (""),
    location := jsOrStr e.location (""),
    start := ⟨e.dateStart, none, some TIMEZONE⟩,
    endTime := ⟨jsOrOpt e.dateEnd e.dateStart, none, some TIMEZONE⟩ }

/-- One iteration of the `main` loop of the no-all-day variants: the body is
always built and the insert always attempted (the returned Bool, always
true); the note text is the one of src/unnamed/part_001. -/
def syncStepSimple (ins : EventBody → Except String String) (nowIso : String)
    (e : Event) : Event × Bool :=
  let body := createCalendarEventSimple e
  match ins body with
  | Except.ok cid =>
    (applyUpdate e
      [("Calendar ID", PropValue.rich cid),
       ("Status", PropValue.sel "Scheduled"),
       ("Notes", PropValue.rich ("Synced to Google Calendar on " ++ nowIso))], true)
  | Except.error m =>
    (applyUpdate e [("Notes", PropValue.rich ("Error syncing: " ++ m))], true)

/-- The spec's presence condition for the `time` field: the start value is a
timestamp containing both date and time components — in the ISO 8601 strings
the store emits, exactly the strings with a `'T'` separator. -/
def specTimePresent (e : Event) : Prop :=
  ∃ s, e.dateStart = some s ∧ s.data.contains 'T' = true

/-- The spec's presence condition for `location`: a non-empty text value. -/
def specLocationPresent (e : Event) : Prop :=
  ∃ s, e.location = some s ∧ s ≠ ""

/-- The spec's presence condition for `description`: a non-empty text value. -/
def specDescriptionPresent (e : Event) : Prop :=
  ∃ s, e.description = some s ∧ s ≠ ""

/-- `pat` occurs as a contiguous substring of `s`. -/
def strContainsSub (pat s : String) : Prop :=
  ∃ l r : String, s = l ++ pat ++ r

/-- Executable substring test (on the character lists). -/
def hasSubstr (pat : List Char) : List Char → Bool
  | [] => pat.isEmpty
  | c :: t => pat.isPrefixOf (c :: t) || hasSubstr pat t

/-- Strict lexicographic order on character lists by code point — the
standard sort order on (ASCII) strings. -/
def lexLt : List Char → List Char → Bool
  | [], [] => false
  | [], _ :: _ => true
  | _ :: _, [] => false
  | a :: as, b :: bs =>
    if a < b then true else if b < a then false else lexLt as bs

/-- A record with every optional field absent. -/
def baseEvent : Event :=
  { eventName := none, dateStart := none, dateEnd := none, location := none,
    description := none, nagCount := none, lastNagged := none, lastEdited := 0,
    nagStatus := none, askedWho := none, status := none, notes := none,
    calendarId := none }

/-- A record with stored nag count 5 (give-up threshold reached). -/
def ev1 : Event :=
  { baseEvent with
    nagCount := some 5, status := some "Scheduled",
    nagStatus := some "Pending" }

/-- A record with stored nag count 0 whose last edit is at the epoch. -/
def ev2 : Event := { baseEvent with nagCount := some 0 }

/-- A record on its third nag, last nagged at the epoch. -/
def ev3 : Event := { baseEvent with nagCount := some 2, lastNagged := some 0 }

/-- A record with a positive nag count but no Last Nagged date. -/
def ev3b : Event := { baseEvent with nagCount := some 2 }

/-- A record on its second nag, last nagged at the epoch. -/
def ev3c : Event := { baseEvent with nagCount := some 1, lastNagged := some 0 }

/-- An approved record with a date-only start and no end. -/
def ev4 : Event := { baseEvent with dateStart := some "2024-06-01" }

/-- A due record: second nag, last nagged three hours before `now`. -/
def ev5 : Event :=
  { baseEvent with
    status := some "Scheduled", nagStatus := some "Pending",
    nagCount := some 1, lastNagged := some 0, eventName := some "Party",
    dateStart := some "2024-06-01" }

/-- A record missing its time (date-only start) and its location, with a
description present. -/
def ev9 : Event :=
  { baseEvent with
    eventName := some "Picnic", dateStart := some "2024-06-01",
    description := some "details" }

theorem strContainsSub_self (p : String) : strContainsSub p p := by
  refine ⟨"", "", ?_⟩
  cases p with
  | mk l => exact congrArg String.mk (by simp)

theorem strContainsSub_left (y : String) {p x : String}
    (h : strContainsSub p x) : strContainsSub p (x ++ y) := by
  obtain ⟨l, r, rfl⟩ := h
  exact ⟨l, r ++ y, String.append_assoc (l ++ p) r y⟩

theorem strContainsSub_right (x : String) {p y : String}
    (h : strContainsSub p y) : strContainsSub p (x ++ y) := by
  obtain ⟨l, r, rfl⟩ := h
  refine ⟨x ++ l, r, ?_⟩
  simp [String.append_assoc]

/-- C1: for every record with stored nag count at least 5, `shouldNagNow`
decides `max_attempts` (the GiveUp decision) regardless of `last_edited`,
`last_nagged` and `now`; the `main` loop then only sets Nag Status to
"Gave Up", calls `sendSlackDM` for nothing, and the updated record no longer
matches the nag query, so no further nags are sent for it. -/
theorem c1_giveup_terminal (e : Event) (now : Int) (sendOk : Bool)
    (h : 5 ≤ jsOrZero e.nagCount) :
    shouldNagNow e now = ⟨false, "max_attempts"⟩ ∧
    processEvent e now sendOk =
      ({ e with nagStatus := some "Gave Up" }, SendOutcome.notAttempted) ∧
    nagQueryMatches { e with nagStatus := some "Gave Up" } = false := by
  have hd : shouldNagNow e now = ⟨false, "max_attempts"⟩ := by
    simp [shouldNagNow, h]
  refine ⟨hd, ?_, ?_⟩
  · simp [processEvent, hd, applyUpdate, giveUpPayload, applyProp]
  · simp [nagQueryMatches]

theorem c1_giveup_terminal_witness :
    shouldNagNow ev1 99 = ⟨false, "max_attempts"⟩ ∧
    processEvent ev1 99 true =
      ({ ev1 with nagStatus := some "Gave Up" }, SendOutcome.notAttempted) ∧
    nagQueryMatches { ev1 with nagStatus := some "Gave Up" } = false :=
  c1_giveup_terminal ev1 99 true (by decide)

/-- C2: contrary to the claim, a record with stored nag count 0 is NEVER
due: `new Date(props['Last edited time'])` coerces the property object to an
Invalid Date, the `lastEdited < hourAgo` comparison is then false whatever
the timestamps are, and `shouldNagNow` answers `too_soon`. -/
theorem c2_first_nag_never_due (e : Event) (now : Int)
    (h : jsOrZero e.nagCount = 0) :
    shouldNagNow e now = ⟨false, "too_soon"⟩ := by
  simp [shouldNagNow, h, jsDateLt, lastEditedAsJsDate]

theorem c2_first_nag_never_due_witness :
    shouldNagNow ev2 7200000 = ⟨false, "too_soon"⟩ ∧
    (3600000 : Int) ≤ 7200000 - ev2.lastEdited :=
  ⟨c2_first_nag_never_due ev2 7200000 (by decide), by decide⟩

/-- C3 counterexample: at exactly two hours since the last nag the claim
says Due, but `lastNagTime < twoHoursAgo` is a strict comparison and the
code answers `too_soon`. -/
theorem c3_two_hour_boundary_counterexample :
    ¬ (((shouldNagNow ev3c 7200000).should = true) ↔
        7200000 - (0 : Int) ≥ 2 * 60 * 60 * 1000) := by
  decide

/-- C3 (amended): for a record with stored nag count in 1..4 and a Last
Nagged date, `shouldNagNow` answers Due exactly when strictly more than two
hours have passed since the last nag (at exactly two hours it is still
`too_soon`); with no Last Nagged date it fails open (`unknown_state`, a Due
answer). -/
theorem c3_followup_backoff (e : Event) (now : Int)
    (h1 : 1 ≤ jsOrZero e.nagCount) (h4 : jsOrZero e.nagCount ≤ 4) :
    (∀ t, e.lastNagged = some t →
      (((shouldNagNow e now).should = true) ↔ now - t > 2 * 60 * 60 * 1000) ∧
      (now - t ≤ 2 * 60 * 60 * 1000 →
        shouldNagNow e now = ⟨false, "too_soon"⟩)) ∧
    (e.lastNagged = none → shouldNagNow e now = ⟨true, "unknown_state"⟩) := by
  have h5 : ¬ (5 ≤ jsOrZero e.nagCount) := by omega
  have h0 : ¬ (jsOrZero e.nagCount = 0) := by omega
  constructor
  · intro t ht
    have key : shouldNagNow e now =
        (if t < now - 2 * 60 * 60 * 1000 then (⟨true, "follow_up"⟩ : NagDecision)
          else ⟨false, "too_soon"⟩) := by
      simp [shouldNagNow, h5, h0, ht, jsDateLt]
    by_cases hlt : t < now - 2 * 60 * 60 * 1000
    · rw [key, if_pos hlt]
      exact ⟨by simp; omega, fun hle => absurd hlt (by omega)⟩
    · rw [key, if_neg hlt]
      exact ⟨by simp; omega, fun _ => rfl⟩
  · intro hn
    simp [shouldNagNow, h5, h0, hn]

theorem c3_followup_backoff_witness :
    (shouldNagNow ev3 10800000).should = true ∧
    shouldNagNow ev3b 10800000 = ⟨true, "unknown_state"⟩ :=
  ⟨(((c3_followup_backoff ev3 10800000 (by decide) (by decide)).1 0
      rfl).1).mpr (by decide),
   (c3_followup_backoff ev3b 10800000 (by decide) (by decide)).2 rfl⟩

theorem hasTimeB_iff (e : Event) : hasTimeB e = true ↔ specTimePresent e := by
  cases h : e.dateStart <;>
    simp [hasTimeB, includesT, specTimePresent, h]

theorem hasLocationB_iff (e : Event) :
    hasLocationB e = true ↔ specLocationPresent e := by
  cases h : e.location <;>
    simp [hasLocationB, jsTruthy, specLocationPresent, h]

theorem hasDescriptionB_iff (e : Event) :
    hasDescriptionB e = true ↔ specDescriptionPresent e := by
  cases h : e.description <;>
    simp [hasDescriptionB, jsTruthy, specDescriptionPresent, h]

/-- C7: `getMissingFields` returns exactly the subset of
{time, location, description} whose underlying value is absent or empty —
time present means a start containing a time component (a `'T'`), location
and description present mean a non-empty text — never more fields, never
fewer (and never a duplicate). -/
theorem c7_missing_fields_exact (e : Event) (f : String) :
    (f ∈ getMissingFields e ↔
      (f = "time" ∧ ¬ specTimePresent e) ∨
      (f = "location" ∧ ¬ specLocationPresent e) ∨
      (f = "description" ∧ ¬ specDescriptionPresent e)) ∧
    (getMissingFields e).Nodup := by
  have ht := hasTimeB_iff e
  have hl := hasLocationB_iff e
  have hd := hasDescriptionB_iff e
  constructor
  · cases hT : hasTimeB e <;> cases hL : hasLocationB e <;>
      cases hD : hasDescriptionB e <;>
      simp [getMissingFields, hT, hL, hD, ← ht, ← hl, ← hd]
  · cases hT : hasTimeB e <;> cases hL : hasLocationB e <;>
      cases hD : hasDescriptionB e <;>
      simp [getMissingFields, hT, hL, hD]

/-- C8: for every nonnegative nag count, `getNextPerson` is
`rotation[nagCount % 3]` over the fixed list [winter, summer, rav]; the
choice depends only on the count modulo 3, so it is periodic with period 3. -/
theorem c8_rotation_mod3 (n : Int) (h : 0 ≤ n) :
    getNextPerson n = rotationList.get? (Int.tmod n 3).toNat ∧
    (Int.tmod n 3 = 0 → getNextPerson n = some ("winter")) ∧
    (Int.tmod n 3 = 1 → getNextPerson n = some ("summer")) ∧
    (Int.tmod n 3 = 2 → getNextPerson n = some ("rav")) ∧
    getNextPerson (n + 3) = getNextPerson n ∧
    (∀ m : Int, 0 ≤ m → Int.tmod n 3 = Int.tmod m 3 →
      getNextPerson n = getNextPerson m) := by
  have hnn : 0 ≤ Int.tmod n 3 := Int.tmod_nonneg 3 h
  have hget : getNextPerson n = rotationList.get? (Int.tmod n 3).toNat := by
    simp [getNextPerson, jsIndex, not_lt.mpr hnn]
  refine ⟨hget, ?_, ?_, ?_, ?_, ?_⟩
  · intro h0; rw [hget, h0]; rfl
  · intro h1; rw [hget, h1]; rfl
  · intro h2; rw [hget, h2]; rfl
  · have hmod : Int.tmod (n + 3) 3 = Int.tmod n 3 := by
      rw [Int.tmod_eq_emod (by omega) (by omega),
        Int.tmod_eq_emod h (by omega)]
      omega
    have hnn3 : 0 ≤ Int.tmod (n + 3) 3 := Int.tmod_nonneg 3 (by omega)
    have hget3 : getNextPerson (n + 3) =
        rotationList.get? (Int.tmod (n + 3) 3).toNat := by
      simp [getNextPerson, jsIndex, not_lt.mpr hnn3]
    rw [hget3, hget, hmod]
  · intro m hm hmeq
    have hnnm : 0 ≤ Int.tmod m 3 := Int.tmod_nonneg 3 hm
    rw [hget]
    simp [getNextPerson, jsIndex, not_lt.mpr hnnm, hmeq]

theorem c8_rotation_mod3_witness :
    getNextPerson 4 = rotationList.get? (Int.tmod 4 3).toNat ∧
    (Int.tmod 4 3 = 0 → getNextPerson 4 = some ("winter")) ∧
    (Int.tmod 4 3 = 1 → getNextPerson 4 = some ("summer")) ∧
    (Int.tmod 4 3 = 2 → getNextPerson 4 = some ("rav")) ∧
    getNextPerson (4 + 3) = getNextPerson 4 ∧
    (∀ m : Int, 0 ≤ m → Int.tmod 4 3 = Int.tmod m 3 →
      getNextPerson 4 = getNextPerson m) :=
  c8_rotation_mod3 4 (by decide)

theorem takeWhile_neT_of_no_T (l : List Char) (h : l.contains 'T' = false) :
    l.takeWhile (fun c => !(c == 'T')) = l := by
  induction l with
  | nil => rfl
  | cons c t ih =>
    simp only [List.contains_cons, Bool.or_eq_false_iff,
      beq_eq_false_iff_ne] at h
    have hc : (c == 'T') = false := beq_eq_false_iff_ne.mpr (Ne.symm h.1)
    rw [List.takeWhile_cons_of_pos (by simp [hc]), ih h.2]

theorem splitTHead_of_no_T (s : String) (h : s.data.contains 'T' = false) :
    splitTHead s = s := by
  cases s with
  | mk l => exact congrArg String.mk (takeWhile_neT_of_no_T l h)

/-- C4: for a record with a (truthy) start value, sync-calendar.js derives:
with a `'T'` in the start, a timed event whose start/end dateTime values are
taken verbatim, the end defaulting to the start when the end is absent;
without a `'T'`, an all-day event whose end date is the given end date when
one is present (unchanged, for a date-only end), and the start date plus one
civil day when absent. -/
theorem c4_calendar_event_shape (e : Event) (s : String)
    (hs : e.dateStart = some s) (hne : (s == "") = false) :
    (s.data.contains 'T' = true →
      createCalendarEvent e = Except.ok
        { summary := jsOrStr e.eventName ("Untitled Event"),
          description := jsOrStr e.description (""),
          location := jsOrStr e.location (""),
          start := ⟨some s, none, some TIMEZONE⟩,
          endTime := ⟨jsOrOpt e.dateEnd (some s), none, some TIMEZONE⟩ } ∧
      (truthyOpt e.dateEnd = none → jsOrOpt e.dateEnd (some s) = some s) ∧
      (∀ ed, truthyOpt e.dateEnd = some ed →
        jsOrOpt e.dateEnd (some s) = some ed)) ∧
    (s.data.contains 'T' = false →
      splitTHead s = s ∧
      (∀ ed, truthyOpt e.dateEnd = some ed →
        createCalendarEvent e = Except.ok
          { summary := jsOrStr e.eventName ("Untitled Event"),
            description := jsOrStr e.description (""),
            location := jsOrStr e.location (""),
            start := ⟨none, some (splitTHead s), none⟩,
            endTime := ⟨none, some (splitTHead ed), none⟩ } ∧
        (ed.data.contains 'T' = false → splitTHead ed = ed)) ∧
      (truthyOpt e.dateEnd = none →
        (∀ c, parseYMD s = some c →
          createCalendarEvent e = Except.ok
            { summary := jsOrStr e.eventName ("Untitled Event"),
              description := jsOrStr e.description (""),
              location := jsOrStr e.location (""),
              start := ⟨none, some (splitTHead s), none⟩,
              endTime := ⟨none, some (formatYMD (nextCivilDay c)), none⟩ }) ∧
        (parseYMD s = none →
          createCalendarEvent e = Except.error ("Invalid time value")))) := by
  constructor
  · intro hT
    have hTm : 'T' ∈ s.data := by simpa using hT
    refine ⟨?_, ?_, ?_⟩
    · simp [createCalendarEvent, hs, hne, hTm]
    · intro hnone
      cases hde : e.dateEnd with
      | none => simp [jsOrOpt]
      | some x =>
        simp only [truthyOpt, hde] at hnone
        by_cases hx : x = ""
        · simp [jsOrOpt, hx]
        · simp [hx] at hnone
    · intro ed hed
      cases hde : e.dateEnd with
      | none => simp [truthyOpt, hde] at hed
      | some x =>
        simp only [truthyOpt, hde] at hed
        by_cases hx : x = ""
        · simp [hx] at hed
        · simp [hx] at hed
          subst hed
          simp [jsOrOpt, hde, hx]
  · intro hT
    have hTm : 'T' ∉ s.data := by simpa using hT
    refine ⟨splitTHead_of_no_T s hT, ?_, ?_⟩
    · intro ed hed
      refine ⟨?_, fun h2 => splitTHead_of_no_T ed h2⟩
      simp [createCalendarEvent, hs, hne, hTm, hed]
    · intro hnone
      constructor
      · intro c hc
        simp [createCalendarEvent, hs, hne, hTm, hnone, nextDayStr, hc]
      · intro hc
        simp [createCalendarEvent, hs, hne, hTm, hnone, nextDayStr, hc]

theorem c4_calendar_event_shape_witness :
    createCalendarEvent ev4 = Except.ok
      { summary := "Untitled Event", description := "", location := "",
        start := ⟨none, some ("2024-06-01"), none⟩,
        endTime := ⟨none, some ("2024-06-02"), none⟩ } ∧
    formatYMD (nextCivilDay (2024, 6, 1)) = "2024-06-02" := by
  have h := c4_calendar_event_shape ev4 ("2024-06-01") rfl (by decide)
  constructor
  · have h2 := ((h.2 (by decide)).2.2 (by decide)).1 (2024, 6, 1) (by decide)
    rw [h2]
    rfl
  · rfl

/-- C6: in sync-calendar.js, a record without a truthy start value is an
input error — `createCalendarEvent` throws before any insert, the catch
block writes only an error note, and the status (and calendar id) are left
unmodified; the same error-note outcome holds for any thrown per-record
error (including a failing insert), and the loop handles each record
independently, continuing with the rest. -/
theorem c6_sync_error_isolation (e : Event)
    (ins : EventBody → Except String String) (nowIso : String)
    (rest : List Event) :
    (jsTruthy e.dateStart = false →
      syncStep ins nowIso e =
        ({ e with notes := some ("Error syncing: Date & Time is required") },
          false)) ∧
    (∀ m, createCalendarEvent e = Except.error m →
      syncStep ins nowIso e =
        ({ e with notes := some ("Error syncing: " ++ m) }, false)) ∧
    (∀ b m, createCalendarEvent e = Except.ok b → ins b = Except.error m →
      (syncStep ins nowIso e).1 =
        { e with notes := some ("Error syncing: " ++ m) }) ∧
    syncAll ins nowIso (e :: rest) =
      (syncStep ins nowIso e).1 :: syncAll ins nowIso rest := by
  refine ⟨?_, ?_, ?_, ?_⟩
  · intro h
    cases hds : e.dateStart with
    | none =>
      simp [syncStep, createCalendarEvent, hds, applyUpdate, applyProp]
    | some s =>
      simp only [jsTruthy, hds, Bool.not_eq_false'] at h
      simp [syncStep, createCalendarEvent, hds, h, applyUpdate, applyProp]
  · intro m hm
    simp [syncStep, hm, applyUpdate, applyProp]
  · intro b m hb hm
    simp [syncStep, hb, hm, applyUpdate, applyProp]
  · simp [syncAll]

/-- C5: the claim fails on the success path. On this due record (second nag,
three hours since the last one) with a successful send, the orchestrator
does set Nag Count to 2, Nag Status to Pending and Asked Who to the rotated
person, but the Last Nagged date is NOT set to `now`: the update payload
addresses the keys `date:Last Nagged:start` / `date:Last Nagged:is_datetime`
instead of the `Last Nagged` property (the real Notion API rejects such a
payload outright). On a failed send no field changes, as claimed. -/
theorem c5_update_misses_last_nagged :
    shouldNagNow ev5 10800000 = ⟨true, "follow_up"⟩ ∧
    (processEvent ev5 10800000 true).1.nagCount = some 2 ∧
    (processEvent ev5 10800000 true).1.nagStatus = some ("Pending") ∧
    (processEvent ev5 10800000 true).1.askedWho = some ("summer") ∧
    (processEvent ev5 10800000 true).2 =
      SendOutcome.delivered ("summer") (buildNagMessage ev5 ("summer")) ∧
    (processEvent ev5 10800000 true).1.lastNagged = some 0 ∧
    ¬ (processEvent ev5 10800000 true).1.lastNagged = some 10800000 ∧
    processEvent ev5 10800000 false =
      (ev5, SendOutcome.failed ("summer") (buildNagMessage ev5 ("summer"))) :=
  ⟨rfl, rfl, rfl, rfl, rfl, rfl, by decide, rfl⟩

/-- C9 counterexample: for a record missing `time` and `location`, the
message contains the missing fields joined in the code's push order
`time, location` — not the sorted list, which would read
`location, time`. -/
theorem c9_sorted_counterexample :
    getMissingFields ev9 = ["time", "location"] ∧
    List.Sorted (fun a b : String => lexLt a.data b.data = true)
      (["location", "time"]) ∧
    List.Perm (["location", "time"]) (getMissingFields ev9) ∧
    hasSubstr ("location, time").data (buildNagMessage ev9 ("winter")).data
      = false ∧
    hasSubstr ("time, location").data (buildNagMessage ev9 ("winter")).data
      = true := by
  refine ⟨rfl, by decide, by decide, by decide, by decide⟩

/-- C9 (amended): for every record and recipient, the built message contains
the recipient-specific greeting, the event title (or its
`Untitled Event` placeholder), the scheduled start (or its `Unknown date`
placeholder), the record's missing fields joined in the fixed order
time, location, description, and the attempt number `nag_count + 1` out of
the maximum 5. -/
theorem c9_message_contents (e : Event) (person : String) :
    strContainsSub (greetingOf person) (buildNagMessage e person) ∧
    strContainsSub (jsOrStr e.eventName ("Untitled Event"))
      (buildNagMessage e person) ∧
    strContainsSub (jsOrStr e.dateStart ("Unknown date"))
      (buildNagMessage e person) ∧
    strContainsSub
      ("Missing: " ++ String.intercalate (", ") (getMissingFields e))
      (buildNagMessage e person) ∧
    strContainsSub
      ("(Attempt " ++ toString (jsOrZero e.nagCount + 1) ++ "/5)")
      (buildNagMessage e person) := by
  have hmsg : buildNagMessage e person =
      greetingOf person ++ "\n\nI need some info about this event:\n📅 **" ++
        jsOrStr e.eventName ("Untitled Event") ++ "** (" ++
        jsOrStr e.dateStart ("Unknown date") ++ ")\n\n" ++
        ("Missing: " ++ String.intercalate (", ") (getMissingFields e)) ++
        "\n\nCan you fill in the missing details in Notion? Or reply \"don\x27t know\" if you don\x27t have this info.\n\n" ++
        ("(Attempt " ++ toString (jsOrZero e.nagCount + 1) ++ "/5)") := rfl
  rw [hmsg]
  refine ⟨?_, ?_, ?_, ?_, ?_⟩
  · exact strContainsSub_left _ (strContainsSub_left _ (strContainsSub_left _
      (strContainsSub_left _ (strContainsSub_left _ (strContainsSub_left _
        (strContainsSub_left _ (strContainsSub_left _
          (strContainsSub_self _))))))))
  · exact strContainsSub_left _ (strContainsSub_left _ (strContainsSub_left _
      (strContainsSub_left _ (strContainsSub_left _ (strContainsSub_left _
        (strContainsSub_right _ (strContainsSub_self _)))))))
  · exact strContainsSub_left _ (strContainsSub_left _ (strContainsSub_left _
      (strContainsSub_left _ (strContainsSub_right _
        (strContainsSub_self _)))))
  · exact strContainsSub_left _ (strContainsSub_left _
      (strContainsSub_right _ (strContainsSub_self _)))
  · exact strContainsSub_right _ (strContainsSub_self _)

/-- C10: the two calendar-sync variants without the all-day branch build a
timed event body for every approved record — start and end emitted as
dateTime values in the configured time zone, the end defaulting to the start
when the end is absent (or empty) — even for a date-only or absent start; no
record is rendered all-day (the `date` fields are never set) and none is
skipped before the insert is attempted. -/
theorem c10_simple_sync_always_timed (e : Event)
    (ins : EventBody → Except String String) (nowIso : String) :
    (createCalendarEventSimple e).start =
      ⟨e.dateStart, none, some TIMEZONE⟩ ∧
    (createCalendarEventSimple e).endTime =
      ⟨jsOrOpt e.dateEnd e.dateStart, none, some TIMEZONE⟩ ∧
    (jsTruthy e.dateEnd = false →
      jsOrOpt e.dateEnd e.dateStart = e.dateStart) ∧
    (syncStepSimple ins nowIso e).2 = true := by
  refine ⟨rfl, rfl, ?_, ?_⟩
  · intro h
    cases hde : e.dateEnd with
    | none => simp [jsOrOpt]
    | some x =>
      simp only [jsTruthy, hde, Bool.not_eq_false'] at h
      simp only [beq_iff_eq] at h
      simp [jsOrOpt, h]
  · cases hins : ins (createCalendarEventSimple e) <;>
      simp [syncStepSimple, hins]
